import Mathlib

/-!
Shallow embedding of the core of `src/bot.py` (a catalog/cart/stock Telegram
shop bot).  Python strings are modelled as lists of characters (`Str`),
Python dicts as ordered association lists, Python numbers (prices) as exact
rationals with Python's round-half-to-even rounding, and Python exceptions
as `Option`/`Except` values.  Stateful handlers are modelled as pure
functions from the pre-state to the post-state plus a list of observable
events (lock operations and outbound chat messages).
-/

namespace ElfFox

/-- A Python string, modelled as its list of characters. -/
abbrev Str := List Char

/-- Characters removed by Python's `str.strip()` with no argument
(the ASCII whitespace characters). -/
def isPySpace (c : Char) : Bool :=
  c = ' ' || c = '\t' || c = '\n' || c = '\r' || c = '\x0b' || c = '\x0c'

/-- Python `s.strip()`: drop whitespace from both ends. -/
def pyStrip (s : Str) : Str :=
  ((s.dropWhile isPySpace).reverse.dropWhile isPySpace).reverse

/-- Numeric value of a list of decimal digit characters. -/
def digitsVal (ds : Str) : Nat :=
  ds.foldl (fun a c => 10 * a + (c.toNat - '0'.toNat)) 0

/-- Python `int(s)` on a decimal string: optional surrounding whitespace,
optional sign, then at least one digit; anything else raises `ValueError`
(modelled as `none`). -/
def pyInt (s : Str) : Option Int :=
  match pyStrip s with
  | '-' :: ds =>
    if !ds.isEmpty && ds.all Char.isDigit then some (-(digitsVal ds : Int)) else none
  | '+' :: ds =>
    if !ds.isEmpty && ds.all Char.isDigit then some (digitsVal ds : Int) else none
  | ds =>
    if !ds.isEmpty && ds.all Char.isDigit then some (digitsVal ds : Int) else none

/-- Python list indexing `xs[i]`: negative indices count from the end,
out-of-range indices raise `IndexError` (modelled as `none`). -/
def pyGet {α : Type} (xs : List α) (i : Int) : Option α :=
  let j := if i < 0 then i + xs.length else i
  if 0 ≤ j then xs.get? j.toNat else none

/-- Lookup in an ordered association list (a Python dict read:
`d[k]` / `d.get(k)`). -/
def assocFind {α β : Type} [DecidableEq α] : List (α × β) → α → Option β
  | [], _ => none
  | (a, v) :: t, k => if a = k then some v else assocFind t k

/-- Write to an ordered association list (a Python dict assignment
`d[k] = v`): replace the existing entry in place, else append at the end. -/
def setAssoc {α β : Type} [DecidableEq α] : List (α × β) → α → β → List (α × β)
  | [], k, v => [(k, v)]
  | (a, w) :: t, k, v => if a = k then (k, v) :: t else (a, w) :: setAssoc t k v

/-- Source `item_key(*parts)`: `":".join(parts)`. -/
def joinColon : List Str → Str
  | [] => []
  | [s] => s
  | s :: r :: rest => s ++ ':' :: joinColon (r :: rest)

/-- Source `item_key`: the encoder of the addressing codec. -/
def itemKey (parts : List Str) : Str := joinColon parts

/-- Python `s.split(":")` (unbounded): the decoder used at the top of
`resolve_item_by_key`.  Always returns a non-empty list. -/
def splitColon : Str → List Str
  | [] => [[]]
  | c :: cs =>
    if c = ':' then [] :: splitColon cs
    else
      match splitColon cs with
      | [] => [[c]]
      | s :: rest => (c :: s) :: rest

/-- Split off everything up to the first colon; the second component is
`none` when the string contains no colon. -/
def breakColon : Str → Str × Option Str
  | [] => ([], none)
  | c :: cs =>
    if c = ':' then ([], some cs)
    else
      let p := breakColon cs
      (c :: p.1, p.2)

/-- Python `s.split(":", n)` with a maximum number of splits. -/
def splitColonMax : Nat → Str → List Str
  | 0, s => [s]
  | n + 1, s =>
    match breakColon s with
    | (a, none) => [a]
    | (a, some rest) => a :: splitColonMax n rest

/-- Gregorian leap-year test, as used by Python's `datetime`. -/
def isLeap (y : Nat) : Bool :=
  y % 4 == 0 && (y % 100 != 0 || y % 400 == 0)

/-- Days in a month, as validated by Python's `datetime` constructor. -/
def daysInMonth (y m : Nat) : Nat :=
  if m = 2 then (if isLeap y then 29 else 28)
  else if m = 4 ∨ m = 6 ∨ m = 9 ∨ m = 11 then 30
  else 31

/-- Source `datetime.strptime(eta, "%Y-%m-%d")`: exactly four digits of
year, a dash, one or two digits of month, a dash, one or two digits of day,
end of input; then the `datetime` range checks (year at least 1, month
1..12, day 1..days-in-month).  `none` models the raised `ValueError`. -/
def parseDate (s : Str) : Option (Nat × Nat × Nat) :=
  let p1 := s.span Char.isDigit
  if p1.1.length = 4 then
    match p1.2 with
    | '-' :: r2 =>
      let p2 := r2.span Char.isDigit
      if p2.1.length = 1 ∨ p2.1.length = 2 then
        match p2.2 with
        | '-' :: r4 =>
          let p3 := r4.span Char.isDigit
          if (p3.1.length = 1 ∨ p3.1.length = 2) ∧ p3.2 = [] then
            let y := digitsVal p1.1
            let m := digitsVal p2.1
            let d := digitsVal p3.1
            if 1 ≤ y ∧ 1 ≤ m ∧ m ≤ 12 ∧ 1 ≤ d ∧ d ≤ daysInMonth y m then
              some (y, m, d)
            else none
          else none
        | _ => none
      else none
    | _ => none
  else none

/-- Floor of a rational. -/
def ratFloor (q : ℚ) : ℤ := ⌊q⌋

/-- Python `round(q)` on an exact value: round half to even. -/
def roundHalfEven (q : ℚ) : ℤ :=
  let f := ratFloor q
  let r := q - (f : ℚ)
  if r < 1 / 2 then f
  else if 1 / 2 < r then f + 1
  else if f % 2 = 0 then f else f + 1

/-- Python `round(q, 2)` on an exact value. -/
def round2 (q : ℚ) : ℚ := (roundHalfEven (q * 100) : ℚ) / 100

/-- One cart entry as appended by the add-to-cart handlers:
a resolved name and a unit price. -/
structure CartLine where
  name : Str
  price : ℚ
deriving DecidableEq

/-- Source `cart_total`: `round(sum(float(item["price"]) for item in cart), 2)`.
Prices are modelled as exact rationals. -/
def cartTotal (cart : List CartLine) : ℚ :=
  round2 ((cart.map CartLine.price).sum)

/-- A flavor entry in the catalog document: either a bare string or a dict
(whose other keys and Python `str()` rendering are kept abstractly in
`rendered`). -/
inductive Flavor where
  | fstr (s : Str)
  | fdict (name : Option Str) (title : Option Str) (rendered : Str)
deriving DecidableEq

/-- Source `_extract_flavor_name`: a string is returned as is; for a dict,
`str(fl.get("name") or fl.get("title") or fl)` (the `or` chain skips
missing keys and empty strings). -/
def extractFlavorName (fl : Flavor) : Str :=
  match fl with
  | .fstr s => s
  | .fdict name title r =>
    match name with
    | some n =>
      if n = [] then
        match title with
        | some t => if t = [] then r else t
        | none => r
      else n
    | none =>
      match title with
      | some t => if t = [] then r else t
      | none => r

/-- Python `str(flavor)` for a flavor used directly in an f-string. -/
def flavorStr (fl : Flavor) : Str :=
  match fl with
  | .fstr s => s
  | .fdict _ _ r => r

/-- An element of an `items` list in the catalog document: either a bare
string or a dict with the optional keys the source reads
(`name`, `price`, `photo`, `nicotine`, `items`). -/
inductive CatItem where
  | istr (s : Str)
  | idict (name : Option Str) (price : Option ℚ) (photo : Option Str)
          (nicotine : Option Str) (items : Option (List Flavor))
deriving DecidableEq

/-- Python `it["name"]` / `it.get("name")`: key access on a dict raises for
a bare string entry (modelled as `none`). -/
def catItemName : CatItem → Option Str
  | .istr _ => none
  | .idict name _ _ _ _ => name

/-- Python `it["price"]` / `it.get("price")`. -/
def catItemPrice : CatItem → Option ℚ
  | .istr _ => none
  | .idict _ price _ _ _ => price

/-- Python `it.get("photo")` (`none` also for a bare string entry, where the
real code would raise; used only where a dict is already established). -/
def catItemPhoto : CatItem → Option Str
  | .istr _ => none
  | .idict _ _ photo _ _ => photo

/-- Python `it.get("nicotine")` / `"nicotine" in it`. -/
def catItemNicotine : CatItem → Option Str
  | .istr _ => none
  | .idict _ _ _ nicotine _ => nicotine

/-- Python `it["items"]` / `it.get("items")`: the nested flavor list. -/
def catItemItems : CatItem → Option (List Flavor)
  | .istr _ => none
  | .idict _ _ _ _ items => items

/-- A brand node of the catalog document. -/
structure Brand where
  title : Option Str
  photo : Option Str
  priceRange : Option Str
  items : Option (List CatItem)
deriving DecidableEq

/-- A category node of the catalog document. -/
structure Category where
  title : Option Str
  photo : Option Str
  items : Option (List CatItem)
  brands : Option (List (Str × Brand))
deriving DecidableEq

/-- The catalog document (`CATALOG`), an ordered mapping of categories. -/
structure Catalog where
  categories : List (Str × Category)
deriving DecidableEq

/-- Python `str(x)` for an optional string rendered inside an f-string:
`None` renders as the text `None`. -/
def optRender (o : Option Str) : Str :=
  match o with
  | some s => s
  | none => "None".data

/-- The body of the `try` block of `resolve_item_by_key`; `none` models any
raised exception (caught by the enclosing handler, which then returns
`(key, None)`). -/
def tryResolve (cat : Catalog) (key : Str) : Option (Str × Option ℚ) :=
  let parts := splitColon key
  let t := parts.headD []
  if t = "cat".data then
    match parts with
    | [_, catKey, idx] => do
      let c ← assocFind cat.categories catKey
      let items ← c.items
      let i ← pyInt idx
      let it ← pyGet items i
      let nm ← (match it with                   -- it.get("name", key)
                | .istr _ => none               -- .get on a string raises
                | .idict name _ _ _ _ => some (name.getD key))
      pure (nm, catItemPrice it)
    | _ => none
  else if t = "brand".data then
    match parts with
    | [_, catKey, brandKey, idx] => do
      let c ← assocFind cat.categories catKey
      let bs ← c.brands
      let b ← assocFind bs brandKey
      let items ← b.items
      let i ← pyInt idx
      let it ← pyGet items i
      let nm ← (match it with                   -- it.get("name", key)
                | .istr _ => none               -- .get on a string raises
                | .idict name _ _ _ _ => some (name.getD key))
      pure (nm, catItemPrice it)
    | _ => none
  else if t = "nic".data then
    match parts with
    | [_, catKey, brandKey, blockIdx, flavorIdx] => do
      let c ← assocFind cat.categories catKey
      let bs ← c.brands
      let b ← assocFind bs brandKey
      let items ← b.items
      let bi ← pyInt blockIdx
      let block ← pyGet items bi
      let flavs ← catItemItems block
      let fi ← pyInt flavorIdx
      let fl ← pyGet flavs fi
      let title := b.title.getD [] ++ ' ' :: optRender (catItemNicotine block)
                     ++ " — ".data ++ flavorStr fl
      pure (pyStrip title, catItemPrice block)
    | _ => none
  else if t = "flv".data then
    match parts with
    | [_, catKey, brandKey, parentIdx, flavorIdx] => do
      let c ← assocFind cat.categories catKey
      let bs ← c.brands
      let b ← assocFind bs brandKey
      let items ← b.items
      let pi ← pyInt parentIdx
      let parent ← pyGet items pi
      let flavs ← (match parent with          -- parent.get("items", [])
                   | .istr _ => none          -- .get on a string raises
                   | .idict _ _ _ _ its => some (its.getD []))
      let fi ← pyInt flavorIdx
      let fl ← pyGet flavs fi
      let flName := extractFlavorName fl
      let baseName := (catItemName parent).getD (b.title.getD [])
      let title := baseName ++ " — ".data ++ flName
      pure (pyStrip title, catItemPrice parent)
    | _ => none
  else none

/-- Source `resolve_item_by_key`: returns `(title, price)` on success and
`(key, None)` when the key cannot be resolved (the `except` path or the
fall-through return). -/
def resolveItemByKey (cat : Catalog) (key : Str) : Str × Option ℚ :=
  match tryResolve cat key with
  | some r => r
  | none => (key, none)

/-- A stock-overlay entry (`{"in_stock": ..., "eta": ...}`). -/
structure StockEntry where
  inStock : Bool
  eta : Option Str
deriving DecidableEq

/-- The on-disk `stock.json` as seen at load time: missing file, contents
that fail `json.loads`, contents that parse but are not a dict, or a
well-formed overlay mapping. -/
inductive StoreFile where
  | missing
  | corrupt
  | notDict
  | good (entries : List (Str × StockEntry))
deriving DecidableEq

/-- Source `load_stock_cache`: a missing, unparseable, or non-dict store
yields an empty overlay; loading never fails. -/
def loadStockCache : StoreFile → List (Str × StockEntry)
  | .missing => []
  | .corrupt => []
  | .notDict => []
  | .good m => m

/-- The module-level mutable stock state: the in-memory overlay
(`STOCK_CACHE`), the dirty flag (`STOCK_DIRTY`) and the persisted store
(`stock.json`). -/
structure Globals where
  stockCache : List (Str × StockEntry)
  stockDirty : Bool
  stockFile : StoreFile
deriving DecidableEq

/-- Source `stock_get`: overlay lookup with the default
`{"in_stock": True, "eta": None}` for an absent key. -/
def stockGet (cache : List (Str × StockEntry)) (key : Str) : StockEntry :=
  (assocFind cache key).getD ⟨true, none⟩

/-- Source `stock_set`: overwrite the overlay entry and mark the cache
dirty. -/
def stockSet (g : Globals) (key : Str) (inStock : Bool) (eta : Option Str) :
    Globals :=
  { g with stockCache := setAssoc g.stockCache key ⟨inStock, eta⟩,
           stockDirty := true }

/-- Source `save_stock_cache`: flush the cache to the persisted store only
when dirty (the write is modelled as succeeding). -/
def saveStock (g : Globals) : Globals :=
  if g.stockDirty then
    { g with stockFile := .good g.stockCache, stockDirty := false }
  else g

/-- The per-user session dictionary (`context.user_data`). -/
structure Session where
  city : Option Str
  cart : List CartLine
  awaitingEtaKey : Option Str
  reserveKey : Option Str
  awaitingCity : Bool
deriving DecidableEq

/-- Startup configuration: the admin allow-list (`ADMIN_IDS`) and the
loaded catalog (`CATALOG`). -/
structure Config where
  adminIds : List Nat
  catalog : Catalog
deriving DecidableEq

/-- Source `is_admin`: membership in the admin allow-list. -/
def isAdmin (cfg : Config) (userId : Nat) : Bool :=
  cfg.adminIds.contains userId

/-- Source `COURIER_CHAT_IDS`. -/
def courierChatIds : List (Str × Nat) :=
  [("Leipzig".data, 8401636475), ("Dresden".data, 8501964969),
   ("Berlin".data, 8449852526), ("DEFAULT".data, 8449852526)]

/-- Source `get_courier_chat_id`: lookup with the `DEFAULT` entry
(8449852526) as fallback. -/
def getCourierChatId (city : Str) : Nat :=
  (assocFind courierChatIds city).getD 8449852526

/-- Source `COURIERS`. -/
def couriers : List (Str × Str) :=
  [("Dresden".data, "@dresden_fox".data), ("Leipzig".data, "@leipzig_foxs".data),
   ("DEFAULT".data, "@courier_fox".data)]

/-- Source `get_courier_for_city`: lookup with the `DEFAULT` entry as
fallback. -/
def getCourierForCity (city : Str) : Str :=
  (assocFind couriers city).getD "@courier_fox".data

/-- Python `str(n)` for a natural number (list index rendering). -/
def natToStr (n : Nat) : Str := (Nat.repr n).data

/-- A button action token attached to a rendered menu (the semantically
relevant part of an `InlineKeyboardButton`; label text is elided). -/
inductive Btn where
  | brandB (catKey brandKey : Str)
  | addCat (catKey : Str) (idx : Nat)
  | addBrand (catKey brandKey : Str) (idx : Nat)
  | addNic (catKey brandKey blockIdx : Str) (idx : Nat)
  | addFlv (catKey brandKey parentIdx : Str) (idx : Nat)
  | flavorsB (catKey brandKey : Str) (idx : Nat)
  | reserveB (key : Str)
deriving DecidableEq

/-- An outbound chat message, carrying the data interpolated into the
source's message text (static wording elided). -/
inductive OutMsg where
  | etaFormatError
  | markedUnavailable (title : Str) (price : Option ℚ) (eta : Str)
  | promptEta (title : Str) (price : Option ℚ)
  | nowAvailable (title : Str) (price : Option ℚ)
  | reservationNotice (userId : Nat) (username : Option Str) (city : Str)
      (title : Str) (price : Option ℚ) (eta : Option Str) (contact : Str)
  | reservationThanks (eta : Option Str)
  | mainMenu
  | catNotFound
  | chooseMenu (btns : List Btn)
  | chooseFlavor (btns : List Btn)
  | orderSummary (userId : Nat) (username : Option Str) (city : Str)
      (lines : List CartLine) (total : ℚ) (timestamp : Str)
  | checkoutThanks (courier : Str)
  | emptyCartView
  | emptyCartNote
  | cartView (lines : List CartLine) (total : ℚ)
  | removedLine (name : Str)
  | addedConf (name : Str) (price : ℚ) (photo : Option Str)
  | unknownAction
  | addError
  | adminPanel (cats : List Str)
  | adminCatNotFound
  | adminBrandMenu (labels : List Str)
  | adminBrandNotFound
  | adminNoItems
  | adminBlockMenu (labels : List (Option Str × Option ℚ))
  | adminItemList (rows : List (Str × Bool × Option Str))
deriving DecidableEq

/-- An observable side effect of one handler invocation: callback acks,
per-user lock operations, and outbound messages. -/
inductive Ev where
  | ack
  | ackWait (userId : Nat)
  | acq (userId : Nat)
  | rel (userId : Nat)
  | send (chatId : Nat) (m : OutMsg)
  | reply (m : OutMsg)
  | photoTry (p : Option Str)
deriving DecidableEq

/-- The result of one stateful handler call: the new global stock state,
the new session, and the emitted events in order. -/
abbrev HandlerOut := Globals × Session × List Ev

/-- Source `text_router`: dispatch of a free-text message over the three
pending modes (admin ETA capture, reservation contact capture, city
capture); no pending mode means no reaction.  The pending keys stored by
the handlers are never empty strings, so Python's truthiness test on them
is modelled as `Option` matching. -/
def textRouter (cfg : Config) (g : Globals) (s : Session) (userId : Nat)
    (username : Option Str) (rawText : Str) : HandlerOut :=
  let text := pyStrip rawText
  match s.awaitingEtaKey with
  | some key =>
    if !isAdmin cfg userId then
      (g, { s with awaitingEtaKey := none }, [])
    else
      match parseDate text with
      | none => (g, s, [.reply .etaFormatError])
      | some _ =>
        let g1 := saveStock (stockSet g key false (some text))
        let s1 := { s with awaitingEtaKey := none }
        let r := resolveItemByKey cfg.catalog key
        (g1, s1, [.reply (.markedUnavailable r.1 r.2 text)])
  | none =>
  match s.reserveKey with
  | some key =>
    let s1 := { s with reserveKey := none }
    let city := s.city.getD "Невідомо".data
    let st := stockGet g.stockCache key
    let r := resolveItemByKey cfg.catalog key
    let notice := OutMsg.reservationNotice userId username city r.1 r.2 st.eta text
    (g, s1, cfg.adminIds.map (fun a => Ev.send a notice)
              ++ [.reply (.reservationThanks st.eta)])
  | none =>
  if s.awaitingCity then
    (g, { s with city := some text, awaitingCity := false }, [.reply .mainMenu])
  else (g, s, [])

/-- Source `cart_view_handler`: an empty cart renders the empty-cart
message, otherwise the itemized cart with its `cart_total`. -/
def cartViewHandler (g : Globals) (s : Session) : HandlerOut :=
  if s.cart = [] then
    (g, s, [.ack, .reply .emptyCartView])
  else
    (g, s, [.ack, .reply (.cartView s.cart (cartTotal s.cart))])

/-- Source `remove_one_handler`: pops the last cart line (no lock is
acquired) and re-renders the cart view. -/
def removeOneHandler (g : Globals) (s : Session) : HandlerOut :=
  match s.cart.getLast? with
  | none => (g, s, [.ack, .reply .emptyCartNote])
  | some removed =>
    let s1 := { s with cart := s.cart.dropLast }
    let r := cartViewHandler g s1
    (r.1, r.2.1, [.ack, .reply (.removedLine removed.name)] ++ r.2.2)

/-- Source `checkout_handler`: formats the order summary with
`cart_total`, fans it out to every admin and to the city's courier chat,
clears the cart, and confirms (no lock is acquired; `now` models the
`datetime.now()` timestamp read). -/
def checkoutHandler (cfg : Config) (g : Globals) (s : Session) (userId : Nat)
    (username : Option Str) (now : Str) : HandlerOut :=
  if s.cart = [] then
    (g, s, [.ack, .reply .emptyCartNote])
  else
    let city := s.city.getD "Невідомо".data
    let order := OutMsg.orderSummary userId username city s.cart
                   (cartTotal s.cart) now
    let courierEvs := if getCourierChatId city ≠ 0 then
                        [Ev.send (getCourierChatId city) order]
                      else []
    (g, { s with cart := [] },
     [.ack] ++ cfg.adminIds.map (fun a => Ev.send a order) ++ courierEvs
       ++ [.reply (.checkoutThanks (getCourierForCity city))])

/-- Python `a or b` over two optional strings (an empty string is falsy):
the photo fallback chains in the add-to-cart handler. -/
def orFalsy (a b : Option Str) : Option Str :=
  match a with
  | some x => if x = [] then b else some x
  | none => b

/-- The body of the `async with lock` block of `add_to_cart_handler`:
splits the action token, resolves the item against the catalog, appends the
cart line and echoes a confirmation; any exception inside the `try` is
caught and reported as an error message, an unknown action prefix is
reported as such. -/
def addCore (cfg : Config) (g : Globals) (s : Session) (data : Str) :
    HandlerOut :=
  let parts := splitColon data
  let t := parts.headD []
  if t = "add".data then
    match parts with
    | [_, catKey, idx] =>
      match (do
        let c ← assocFind cfg.catalog.categories catKey
        let items ← c.items
        let i ← pyInt idx
        let it ← pyGet items i
        let nm ← catItemName it            -- item["name"]
        let pr ← catItemPrice it           -- float(item["price"])
        pure (nm, pr, catItemPhoto it)) with
      | some (nm, pr, photo) =>
        let fnp := catKey = "pods".data ∨ catKey = "liquids".data
        (g, { s with cart := s.cart ++ [⟨nm, pr⟩] },
         [.reply (.addedConf nm pr (if fnp then none else photo))])
      | none => (g, s, [.reply .addError])
    | _ => (g, s, [.reply .addError])      -- tuple unpack ValueError, caught
  else if t = "addb".data then
    match parts with
    | [_, catKey, brandKey, idx] =>
      match (do
        let c ← assocFind cfg.catalog.categories catKey
        let bs ← c.brands
        let b ← assocFind bs brandKey
        let items ← b.items
        let i ← pyInt idx
        let it ← pyGet items i
        let nm ← catItemName it
        let pr ← catItemPrice it
        pure (nm, pr, orFalsy (catItemPhoto it) b.photo)) with
      | some (nm, pr, photo) =>
        let fnp := catKey = "pods".data ∨ catKey = "liquids".data
        (g, { s with cart := s.cart ++ [⟨nm, pr⟩] },
         [.reply (.addedConf nm pr (if fnp then none else photo))])
      | none => (g, s, [.reply .addError])
    | _ => (g, s, [.reply .addError])
  else if t = "addn".data then
    match parts with
    | [_, catKey, brandKey, blockIdx, flavorIdx] =>
      match (do
        let c ← assocFind cfg.catalog.categories catKey
        let bs ← c.brands
        let b ← assocFind bs brandKey
        let items ← b.items
        let bi ← pyInt blockIdx
        let block ← pyGet items bi
        let flavs ← catItemItems block
        let fi ← pyInt flavorIdx
        let fl ← pyGet flavs fi
        let pr ← catItemPrice block        -- float(block["price"])
        let nm := pyStrip (b.title.getD [] ++ ' ' :: optRender (catItemNicotine block)
                             ++ " — ".data ++ flavorStr fl)
        pure (nm, pr, b.photo)) with
      | some (nm, pr, photo) =>
        let fnp := catKey = "pods".data ∨ catKey = "liquids".data
        (g, { s with cart := s.cart ++ [⟨nm, pr⟩] },
         [.reply (.addedConf nm pr (if fnp then none else photo))])
      | none => (g, s, [.reply .addError])
    | _ => (g, s, [.reply .addError])
  else if t = "addf".data then
    match parts with
    | [_, catKey, brandKey, parentIdx, flavorIdx] =>
      match (do
        let c ← assocFind cfg.catalog.categories catKey
        let bs ← c.brands
        let b ← assocFind bs brandKey
        let items ← b.items
        let pi ← pyInt parentIdx
        let parent ← pyGet items pi
        let flavs ← (match parent with        -- parent.get("items", [])
                     | .istr _ => none
                     | .idict _ _ _ _ its => some (its.getD []))
        let fi ← pyInt flavorIdx
        let fl ← pyGet flavs fi
        let pr ← catItemPrice parent          -- float(parent["price"])
        let nm := pyStrip ((catItemName parent).getD (b.title.getD [])
                             ++ " — ".data ++ extractFlavorName fl)
        pure (nm, pr, orFalsy (catItemPhoto parent) b.photo)) with
      | some (nm, pr, photo) =>
        let fnp := catKey = "pods".data ∨ catKey = "liquids".data
        (g, { s with cart := s.cart ++ [⟨nm, pr⟩] },
         [.reply (.addedConf nm pr (if fnp then none else photo))])
      | none => (g, s, [.reply .addError])
    | _ => (g, s, [.reply .addError])
  else (g, s, [.reply .unknownAction])

/-- Source `add_to_cart_handler`: answers the callback, warns a concurrent
caller when the user's lock is already held, then runs the mutation inside
the per-user lock (lock acquisition and release are recorded as events). -/
def addToCartHandler (cfg : Config) (g : Globals) (s : Session) (userId : Nat)
    (lockHeld : Bool) (data : Str) : HandlerOut :=
  let r := addCore cfg g s data
  (r.1, r.2.1,
   [.ack] ++ (if lockHeld then [.ackWait userId] else [])
     ++ [.acq userId] ++ r.2.2 ++ [.rel userId])

/-- Lift a failing Python expression into the exception monad: `none`
becomes an uncaught exception. -/
def liftO {α : Type} : Option α → Except Unit α
  | some a => .ok a
  | none => .error ()

/-- Source `admin_cmd` (the `/admin` command): silently ignored for a
non-admin, otherwise renders the category panel (labels
`cat.get("title", cat_key)`). -/
def adminCmd (cfg : Config) (g : Globals) (s : Session) (userId : Nat) :
    HandlerOut :=
  if !isAdmin cfg userId then (g, s, [])
  else
    (g, s, [.reply (.adminPanel (cfg.catalog.categories.map
                                  (fun p => p.2.title.getD p.1)))])

/-- Source `admin_toggle`: answers the callback, checks the allow-list,
then either enters the ETA-capture pending mode (leaf currently available;
no overlay write yet) or immediately restores availability (leaf currently
unavailable; writes `in_stock=True, eta=None` and flushes).  The routing
pattern guarantees the token contains a colon, so `split(":", 1)[1]` is
modelled with a default. -/
def adminToggle (cfg : Config) (g : Globals) (s : Session) (userId : Nat)
    (data : Str) : HandlerOut :=
  if !isAdmin cfg userId then (g, s, [.ack])
  else
    let key := (breakColon data).2.getD []
    let st := stockGet g.stockCache key
    if st.inStock then
      let r := resolveItemByKey cfg.catalog key
      (g, { s with awaitingEtaKey := some key },
       [.ack, .reply (.promptEta r.1 r.2)])
    else
      let g1 := saveStock (stockSet g key true none)
      let r := resolveItemByKey cfg.catalog key
      (g1, s, [.ack, .reply (.nowAvailable r.1 r.2)])

/-- The item listing of `admin_cat`: one row per item with its stock mark
and recorded ETA; `it["name"]` raises on an entry that is not a dict with a
name. -/
def adminCatRows (g : Globals) (catKey : Str) :
    List CatItem → Nat → Except Unit (List (Str × Bool × Option Str))
  | [], _ => .ok []
  | it :: rest, idx => do
    let key := itemKey ["cat".data, catKey, natToStr idx]
    let st := stockGet g.stockCache key
    let nm ← liftO (catItemName it)
    let rows ← adminCatRows g catKey rest (idx + 1)
    let etaShown := if !st.inStock && st.eta.isSome then st.eta else none
    .ok ((nm, st.inStock, etaShown) :: rows)

/-- Source `admin_cat`: answers, checks the allow-list, then renders either
the brand submenu or the per-item availability listing; an absent category
key yields the not-found message. -/
def adminCat (cfg : Config) (g : Globals) (s : Session) (userId : Nat)
    (data : Str) : Except Unit HandlerOut :=
  if !isAdmin cfg userId then .ok (g, s, [.ack])
  else
    let catKey := (breakColon data).2.getD []
    match assocFind cfg.catalog.categories catKey with
    | none => .ok (g, s, [.ack, .reply .adminCatNotFound])
    | some c =>
      match c.brands with
      | some bs =>
        .ok (g, s, [.ack, .reply (.adminBrandMenu (bs.map
                                    (fun p => p.2.title.getD p.1)))])
      | none => do
        let rows ← adminCatRows g catKey (c.items.getD []) 0
        .ok (g, s, [.ack, .reply (.adminItemList rows)])

/-- The `isinstance(first, dict) and "nicotine" in first and "items" in
first` shape test of `admin_brand` (and `brand_handler`). -/
def isNicBlock (it : CatItem) : Bool :=
  match it with
  | .istr _ => false
  | .idict _ _ _ nic its => nic.isSome && its.isSome

/-- The nicotine-block menu labels of `admin_brand`
(`block.get("nicotine")`, `block.get("price")`); `.get` on a bare string
entry raises. -/
def adminBlockLabels : List CatItem → Except Unit (List (Option Str × Option ℚ))
  | [] => .ok []
  | .istr _ :: _ => .error ()
  | it :: rest => do
    let labels ← adminBlockLabels rest
    .ok ((catItemNicotine it, catItemPrice it) :: labels)

/-- The item listing of `admin_brand`: rows are built only from dict items
carrying a name, everything else is skipped with `continue` (the index
still advances). -/
def adminBrandRows (g : Globals) (catKey brandKey : Str) :
    List CatItem → Nat → List (Str × Bool × Option Str)
  | [], _ => []
  | it :: rest, idx =>
    match catItemName it with
    | none => adminBrandRows g catKey brandKey rest (idx + 1)
    | some nm =>
      let key := itemKey ["brand".data, catKey, brandKey, natToStr idx]
      let st := stockGet g.stockCache key
      let etaShown := if !st.inStock && st.eta.isSome then st.eta else none
      (nm, st.inStock, etaShown) :: adminBrandRows g catKey brandKey rest (idx + 1)

/-- Source `admin_brand`: renders either the nicotine-block submenu or the
per-item availability listing of a brand; the category and `brands`
accesses are raw dict lookups that raise on an absent key. -/
def adminBrand (cfg : Config) (g : Globals) (s : Session) (userId : Nat)
    (data : Str) : Except Unit HandlerOut :=
  if !isAdmin cfg userId then .ok (g, s, [.ack])
  else
    match splitColonMax 2 data with
    | [_, catKey, brandKey] => do
      let c ← liftO (assocFind cfg.catalog.categories catKey)
      let bs ← liftO c.brands
      match assocFind bs brandKey with
      | none => .ok (g, s, [.ack, .reply .adminBrandNotFound])
      | some b =>
        let items := b.items.getD []
        if items.isEmpty then .ok (g, s, [.ack, .reply .adminNoItems])
        else
          if isNicBlock (items.headD (.istr [])) then do
            let labels ← adminBlockLabels items
            .ok (g, s, [.ack, .reply (.adminBlockMenu labels)])
          else
            .ok (g, s, [.ack, .reply (.adminItemList
                          (adminBrandRows g catKey brandKey items 0))])
    | _ => .error ()

/-- The flavor listing of `admin_block`: one row per flavor with its stock
mark and recorded ETA. -/
def adminBlockRows (g : Globals) (catKey brandKey blockIdx : Str) :
    List Flavor → Nat → List (Str × Bool × Option Str)
  | [], _ => []
  | fl :: rest, fidx =>
    let key := itemKey ["nic".data, catKey, brandKey, blockIdx, natToStr fidx]
    let st := stockGet g.stockCache key
    let etaShown := if !st.inStock && st.eta.isSome then st.eta else none
    (flavorStr fl, st.inStock, etaShown)
      :: adminBlockRows g catKey brandKey blockIdx rest (fidx + 1)

/-- Source `admin_block`: renders the per-flavor availability listing of a
nicotine block; all catalog accesses are raw lookups that raise on absent
keys or bad indices. -/
def adminBlock (cfg : Config) (g : Globals) (s : Session) (userId : Nat)
    (data : Str) : Except Unit HandlerOut :=
  if !isAdmin cfg userId then .ok (g, s, [.ack])
  else
    match splitColonMax 3 data with
    | [_, catKey, brandKey, blockIdx] => do
      let c ← liftO (assocFind cfg.catalog.categories catKey)
      let bs ← liftO c.brands
      let b ← liftO (assocFind bs brandKey)
      let items ← liftO b.items
      let bi ← liftO (pyInt blockIdx)
      let block ← liftO (pyGet items bi)
      let flavs ← (match block with           -- block.get("items", [])
                   | .istr _ => .error ()
                   | .idict _ _ _ _ its => .ok (its.getD []))
      .ok (g, s, [.ack, .reply (.adminItemList
                    (adminBlockRows g catKey brandKey blockIdx flavs 0))])
    | _ => .error ()

/-- The selectable children of a flat category in `category_handler`:
available items carry an add token, unavailable ones a reservation token;
the label reads `item["name"]` and `item["price"]`, which raise on an item
that is not a dict with both keys. -/
def catBtns (g : Globals) (catKey : Str) :
    List CatItem → Nat → Except Unit (List Btn)
  | [], _ => .ok []
  | it :: rest, idx => do
    let key := itemKey ["cat".data, catKey, natToStr idx]
    let st := stockGet g.stockCache key
    let _nm ← liftO (catItemName it)
    let _pr ← liftO (catItemPrice it)
    let b := if st.inStock then Btn.addCat catKey idx else Btn.reserveB key
    let bs ← catBtns g catKey rest (idx + 1)
    .ok (b :: bs)

/-- Source `category_handler`: an absent category key is recovered with an
explanatory message; otherwise the category photo is attempted and either
the brand submenu or the stock-annotated item menu is rendered. -/
def categoryHandler (cfg : Config) (g : Globals) (s : Session) (data : Str) :
    Except Unit HandlerOut :=
  let catKey := (breakColon data).2.getD []
  match assocFind cfg.catalog.categories catKey with
  | none => .ok (g, s, [.ack, .reply .catNotFound])
  | some c =>
    match c.brands with
    | some bs =>
      .ok (g, s, [.ack, .photoTry c.photo,
                  .reply (.chooseMenu (bs.map (fun p => Btn.brandB catKey p.1)))])
    | none => do
      let btns ← catBtns g catKey (c.items.getD []) 0
      .ok (g, s, [.ack, .photoTry c.photo, .reply (.chooseMenu btns)])

/-- The flavor buttons of `nicotine_handler`: available flavors carry an
add token, unavailable ones a reservation token. -/
def nicBtns (g : Globals) (catKey brandKey blockIdx : Str) :
    List Flavor → Nat → List Btn
  | [], _ => []
  | _ :: rest, idx =>
    let key := itemKey ["nic".data, catKey, brandKey, blockIdx, natToStr idx]
    let st := stockGet g.stockCache key
    let b := if st.inStock then Btn.addNic catKey brandKey blockIdx idx
             else Btn.reserveB key
    b :: nicBtns g catKey brandKey blockIdx rest (idx + 1)

/-- Source `nicotine_handler`: unlike `category_handler` and
`flavors_handler` it has no recovery path — the token unpack and every
catalog lookup raise uncaught on bad input. -/
def nicotineHandler (cfg : Config) (g : Globals) (s : Session) (data : Str) :
    Except Unit HandlerOut :=
  match splitColonMax 3 data with
  | [_, catKey, brandKey, blockIdx] => do
    let c ← liftO (assocFind cfg.catalog.categories catKey)
    let bs ← liftO c.brands
    let b ← liftO (assocFind bs brandKey)
    let items ← liftO b.items
    let bi ← liftO (pyInt blockIdx)
    let block ← liftO (pyGet items bi)
    let flavs ← liftO (catItemItems block)
    .ok (g, s, [.ack, .reply (.chooseFlavor
                  (nicBtns g catKey brandKey blockIdx flavs 0))])
  | _ => .error ()

/-- The module-level `USER_LOCKS` dictionary together with an allocator of
fresh lock identities (distinct `asyncio.Lock` objects are modelled as
distinct numbers). -/
structure LockTable where
  assign : List (Nat × Nat)
  next : Nat
deriving DecidableEq

/-- Source `get_user_lock`: return the user's existing lock, or create and
register a fresh one. -/
def getUserLock (t : LockTable) (userId : Nat) : Nat × LockTable :=
  match assocFind t.assign userId with
  | some l => (l, t)
  | none => (t.next, ⟨(userId, t.next) :: t.assign, t.next + 1⟩)

/-- Well-formedness of the lock table: every allocated lock identity is
below the allocation counter and no identity is shared by two users. -/
def lockWF (t : LockTable) : Prop :=
  (∀ p ∈ t.assign, p.2 < t.next) ∧
  (∀ p ∈ t.assign, ∀ q ∈ t.assign, p.2 = q.2 → p.1 = q.1)

/-- The events that represent the per-user mutation lock protocol: the
wait alert for a second concurrent caller, acquisition, and release. -/
def isLockEv : Ev → Bool
  | .acq _ => true
  | .rel _ => true
  | .ackWait _ => true
  | _ => false

/-! ## Helper lemmas -/

/-- A successful association-list lookup comes from a member entry. -/
theorem assocFind_mem {α β : Type} [DecidableEq α] {m : List (α × β)}
    {k : α} {v : β} (h : assocFind m k = some v) : (k, v) ∈ m := by
  induction m with
  | nil => simp [assocFind] at h
  | cons p t ih =>
    rcases p with ⟨a, w⟩
    by_cases hak : a = k
    · subst hak
      simp [assocFind] at h
      simp [h]
    · simp [assocFind, hak] at h
      exact List.mem_cons_of_mem _ (ih h)

/-- Splitting on colons never produces the empty list. -/
theorem splitColon_ne_nil : ∀ s : Str, splitColon s ≠ [] := by
  intro s
  induction s with
  | nil => simp [splitColon]
  | cons c cs ih =>
    simp only [splitColon]
    split
    · simp
    · rcases h : splitColon cs with _ | ⟨s1, rest⟩ <;> simp

/-- A colon-free block prepended to a string merges into the first segment
of the split. -/
theorem splitColon_append_free (p : Str) (hp : ∀ c ∈ p, c ≠ ':') :
    ∀ cs s rest, splitColon cs = s :: rest →
      splitColon (p ++ cs) = (p ++ s) :: rest := by
  induction p with
  | nil => intro cs s rest h; simpa using h
  | cons c p' ih =>
    intro cs s rest h
    have hc : c ≠ ':' := hp c (by simp)
    have hp' : ∀ d ∈ p', d ≠ ':' := fun d hd => hp d (by simp [hd])
    have h2 := ih hp' cs s rest h
    simp only [List.cons_append, splitColon, if_neg hc]
    rw [show p'.append cs = p' ++ cs from rfl, h2]

/-- Reading an association list right after writing a key returns the
written value. -/
theorem assocFind_setAssoc_self {α β : Type} [DecidableEq α]
    (m : List (α × β)) (k : α) (v : β) :
    assocFind (setAssoc m k v) k = some v := by
  induction m with
  | nil => simp [setAssoc, assocFind]
  | cons p t ih =>
    by_cases h : p.1 = k
    · cases p
      simp_all [setAssoc, assocFind]
    · cases p
      simp_all [setAssoc, assocFind]

/-! ## Claims -/

/-- Claim C1: for every cart, `cart_total` returns the sum of the line
prices rounded to 2 decimal places exactly once, after the summation and
not per line; in particular a cart of two lines priced 1.005 each totals
2.01 (sum first, then round), while rounding each line first would give
2.00. -/
theorem claim1_cart_total_rounds_once_after_sum :
    (∀ cart : List CartLine,
        cartTotal cart = round2 ((cart.map CartLine.price).sum))
    ∧ cartTotal [⟨"a".data, 1005 / 1000⟩, ⟨"b".data, 1005 / 1000⟩] = 201 / 100
    ∧ round2 (1005 / 1000) + round2 (1005 / 1000) = 2 := by
  refine ⟨fun _ => rfl, ?_, ?_⟩
  · norm_num [cartTotal, round2, roundHalfEven, ratFloor]
  · norm_num [round2, roundHalfEven, ratFloor]

/-- Claim C2, counterexample: the empty segment list vacuously satisfies
the claim's conditions (every segment non-empty and colon-free), but
splitting its colon-join does not return it: `":".join([])` is the empty
string, and splitting the empty string yields `[""]`, not `[]`. -/
theorem claim2_cex_empty_segment_list :
    splitColon (itemKey ([] : List Str)) ≠ ([] : List Str) := by decide

/-- Claim C2 (amended to non-empty segment lists): for every non-empty
list of path segments in which each segment is non-empty and contains no
colon, splitting the colon-joined token produced by `item_key` on colons
(as `resolve_item_by_key` does) yields exactly the original segment
list. -/
theorem claim2_decode_encode_roundtrip (parts : List Str) (hne : parts ≠ [])
    (hseg : ∀ s ∈ parts, s ≠ [] ∧ ':' ∉ s) :
    splitColon (itemKey parts) = parts := by
  induction parts with
  | nil => exact absurd rfl hne
  | cons p rest ih =>
    have hp : ∀ c ∈ p, c ≠ ':' := by
      intro c hc heq
      exact (hseg p (by simp)).2 (heq ▸ hc)
    cases rest with
    | nil =>
      have h := splitColon_append_free p hp [] [] [] rfl
      simpa [itemKey, joinColon] using h
    | cons q rest2 =>
      have ihh := ih (by simp) (fun s hs => hseg s (by simp [hs]))
      have hsplit : splitColon (':' :: joinColon (q :: rest2))
          = [] :: (q :: rest2) := by
        rw [show splitColon (':' :: joinColon (q :: rest2))
              = [] :: splitColon (joinColon (q :: rest2)) by simp [splitColon]]
        rw [show splitColon (joinColon (q :: rest2)) = q :: rest2 from ihh]
      have h2 := splitColon_append_free p hp _ [] (q :: rest2) hsplit
      simpa [itemKey, joinColon] using h2

/-- Claim C2, witness: the round trip on a concrete three-segment key. -/
theorem claim2_roundtrip_witness :
    splitColon (itemKey ["cat".data, "pods".data, "0".data])
      = ["cat".data, "pods".data, "0".data] :=
  claim2_decode_encode_roundtrip _ (by decide) (by decide)

/-- Claim C8: a missing, unparseable, or non-dict persisted overlay store
loads as the empty in-memory overlay (loading is total, never fatal), and
then `stock_get` of every key returns the default available entry with no
ETA. -/
theorem claim8_load_corrupt_defaults_available (f : StoreFile)
    (h : f = .missing ∨ f = .corrupt ∨ f = .notDict) :
    loadStockCache f = [] ∧
      ∀ key, stockGet (loadStockCache f) key = ⟨true, none⟩ := by
  rcases h with h | h | h <;> subst h <;> exact ⟨rfl, fun _ => rfl⟩

/-- Claim C8, witness: the missing-file case at a concrete key. -/
theorem claim8_witness :
    loadStockCache .missing = [] ∧
      stockGet (loadStockCache .missing) "cat:pods:0".data = ⟨true, none⟩ :=
  ⟨(claim8_load_corrupt_defaults_available .missing (Or.inl rfl)).1,
   (claim8_load_corrupt_defaults_available .missing (Or.inl rfl)).2 _⟩

/-- Claim C10: `resolve_item_by_key` is total (the Lean model is a total
function) and returns `(key, None)` whenever the resolution attempt fails;
in particular for every token whose kind prefix is none of `cat`, `brand`,
`nic`, `flv`, and for every token with exactly two segments (a malformed
arity for every kind). -/
theorem claim10_resolve_total_fallback (cat : Catalog) (key : Str) :
    (tryResolve cat key = none → resolveItemByKey cat key = (key, none))
    ∧ ((splitColon key).headD [] ≠ "cat".data
        ∧ (splitColon key).headD [] ≠ "brand".data
        ∧ (splitColon key).headD [] ≠ "nic".data
        ∧ (splitColon key).headD [] ≠ "flv".data
        → resolveItemByKey cat key = (key, none))
    ∧ ((splitColon key).length = 2 → resolveItemByKey cat key = (key, none)) := by
  refine ⟨?_, ?_, ?_⟩
  · intro h; simp [resolveItemByKey, h]
  · rintro ⟨h1, h2, h3, h4⟩
    have hnone : tryResolve cat key = none := by
      unfold tryResolve
      rw [if_neg h1, if_neg h2, if_neg h3, if_neg h4]
    simp [resolveItemByKey, hnone]
  · intro h
    rcases List.length_eq_two.mp h with ⟨a, b, hab⟩
    simp only [resolveItemByKey, tryResolve, hab]
    split_ifs <;> rfl

/-- Claim C10, witness: an unknown kind prefix on a concrete token and
catalog resolves to the token itself with no price. -/
theorem claim10_witness :
    resolveItemByKey ⟨[]⟩ "zzz:0".data = ("zzz:0".data, none) :=
  (claim10_resolve_total_fallback ⟨[]⟩ "zzz:0".data).2.1
    ⟨by decide, by decide, by decide, by decide⟩

/-- Claim C3: for an admin session in the ETA-capture pending mode, a
free-text message that does not parse in the fixed `YYYY-MM-DD` format is
answered with the format-error message only; the globals (overlay, dirty
flag, persisted store) and the session (including the retained pending
key) are unchanged. -/
theorem claim3_eta_reject_retains_mode (cfg : Config) (g : Globals)
    (s : Session) (userId : Nat) (username : Option Str) (text key : Str)
    (hk : s.awaitingEtaKey = some key)
    (ha : isAdmin cfg userId = true)
    (hp : parseDate (pyStrip text) = none) :
    textRouter cfg g s userId username text
      = (g, s, [.reply .etaFormatError]) := by
  simp [textRouter, hk, ha, hp]

/-- Claim C3, witness: the concrete message `next week` is rejected and
the pending mode survives. -/
theorem claim3_witness :
    textRouter ⟨[5], ⟨[]⟩⟩ ⟨[], false, .missing⟩
        ⟨none, [], some "cat:x:1".data, none, false⟩ 5 none "next week".data
      = (⟨[], false, .missing⟩,
         ⟨none, [], some "cat:x:1".data, none, false⟩,
         [.reply .etaFormatError]) :=
  claim3_eta_reject_retains_mode ⟨[5], ⟨[]⟩⟩ ⟨[], false, .missing⟩
    ⟨none, [], some "cat:x:1".data, none, false⟩ 5 none "next week".data
    "cat:x:1".data rfl (by decide) (by decide)

/-- The courier chat lookup never yields a falsy chat id (every entry of
the table and the default are non-zero). -/
theorem getCourierChatId_ne_zero (c : Str) : getCourierChatId c ≠ 0 := by
  unfold getCourierChatId courierChatIds
  simp only [assocFind]
  split_ifs <;> decide

/-- Claim C4: for a session with a non-empty cart, checkout emits the
order summary carrying `cart_total` of the cart to every admin identity
and to the city's courier chat, clears the cart, confirms to the user,
and a subsequent cart view renders the empty-cart message. -/
theorem claim4_checkout_clears_cart (cfg : Config) (g : Globals)
    (s : Session) (userId : Nat) (username : Option Str) (now : Str)
    (h : s.cart ≠ []) :
    (checkoutHandler cfg g s userId username now
      = (g, { s with cart := [] },
         [.ack]
           ++ cfg.adminIds.map (fun a => Ev.send a (OutMsg.orderSummary userId
                username (s.city.getD "Невідомо".data) s.cart
                (cartTotal s.cart) now))
           ++ [Ev.send (getCourierChatId (s.city.getD "Невідомо".data))
                 (OutMsg.orderSummary userId username
                    (s.city.getD "Невідомо".data) s.cart (cartTotal s.cart) now),
               Ev.reply (.checkoutThanks
                 (getCourierForCity (s.city.getD "Невідомо".data)))]))
    ∧ cartViewHandler g { s with cart := [] }
        = (g, { s with cart := [] }, [.ack, .reply .emptyCartView]) := by
  constructor
  · simp [checkoutHandler, h, getCourierChatId_ne_zero]
  · simp [cartViewHandler]

/-- Claim C4, witness: lines priced 10.00 and 5.50 total 15.50, the cart
is cleared by checkout, and the subsequent cart view is the empty-cart
message. -/
theorem claim4_witness :
    cartTotal [⟨"A".data, 10⟩, ⟨"B".data, 11 / 2⟩] = 31 / 2
    ∧ (checkoutHandler ⟨[11, 12], ⟨[]⟩⟩ ⟨[], false, .missing⟩
         ⟨some "Berlin".data, [⟨"A".data, 10⟩, ⟨"B".data, 11 / 2⟩],
          none, none, false⟩ 9 none "t".data).2.1.cart = []
    ∧ (cartViewHandler ⟨[], false, .missing⟩
         { (⟨some "Berlin".data, [⟨"A".data, 10⟩, ⟨"B".data, 11 / 2⟩],
            none, none, false⟩ : Session) with cart := [] }).2.2
        = [.ack, .reply .emptyCartView] := by
  refine ⟨?_, ?_, ?_⟩
  · norm_num [cartTotal, round2, roundHalfEven, ratFloor]
  · rw [(claim4_checkout_clears_cart ⟨[11, 12], ⟨[]⟩⟩ ⟨[], false, .missing⟩
          ⟨some "Berlin".data, [⟨"A".data, 10⟩, ⟨"B".data, 11 / 2⟩],
           none, none, false⟩ 9 none "t".data (by decide)).1]
  · rw [(claim4_checkout_clears_cart ⟨[11, 12], ⟨[]⟩⟩ ⟨[], false, .missing⟩
          ⟨some "Berlin".data, [⟨"A".data, 10⟩, ⟨"B".data, 11 / 2⟩],
           none, none, false⟩ 9 none "t".data (by decide)).2]

/-- Claim C5: for any key whose overlay state reads as the default
available entry (absent, or stored available with no ETA), the full admin
round trip — toggle to unavailable (which enters ETA capture), submit a
valid date, toggle back to available — restores the pre-toggle
`stock_get` result, using the same key throughout; the final state stores
an explicit available-with-no-ETA entry rather than deleting the key. -/
theorem claim5_toggle_roundtrip (cfg : Config) (g : Globals) (s : Session)
    (userId : Nat) (username : Option Str) (key eta : Str)
    (d : Nat × Nat × Nat)
    (ha : isAdmin cfg userId = true)
    (h0 : stockGet g.stockCache key = ⟨true, none⟩)
    (hp : parseDate (pyStrip eta) = some d) :
    let r1 := adminToggle cfg g s userId ("admin_toggle:".data ++ key)
    let r2 := textRouter cfg r1.1 r1.2.1 userId username eta
    let r3 := adminToggle cfg r2.1 r2.2.1 userId ("admin_toggle:".data ++ key)
    stockGet r3.1.stockCache key = stockGet g.stockCache key
    ∧ stockGet r3.1.stockCache key = ⟨true, none⟩
    ∧ assocFind r3.1.stockCache key = some ⟨true, none⟩ := by
  have hsg : ∀ (m : List (Str × StockEntry)) (v : StockEntry),
      stockGet (setAssoc m key v) key = v := by
    intro m v
    simp [stockGet, assocFind_setAssoc_self]
  simp [adminToggle, textRouter, ha, hp, breakColon, h0, stockSet, saveStock,
        hsg, assocFind_setAssoc_self]

/-- Claim C5, witness: the round trip on a concrete key and the date
`2026-01-20`, starting from an empty overlay. -/
theorem claim5_witness :
    let r1 := adminToggle ⟨[7], ⟨[]⟩⟩ ⟨[], false, .missing⟩
                ⟨none, [], none, none, false⟩ 7
                ("admin_toggle:".data ++ "cat:pods:0".data)
    let r2 := textRouter ⟨[7], ⟨[]⟩⟩ r1.1 r1.2.1 7 none "2026-01-20".data
    let r3 := adminToggle ⟨[7], ⟨[]⟩⟩ r2.1 r2.2.1 7
                ("admin_toggle:".data ++ "cat:pods:0".data)
    stockGet r3.1.stockCache "cat:pods:0".data
        = stockGet (⟨[], false, .missing⟩ : Globals).stockCache "cat:pods:0".data
    ∧ stockGet r3.1.stockCache "cat:pods:0".data = ⟨true, none⟩
    ∧ assocFind r3.1.stockCache "cat:pods:0".data = some ⟨true, none⟩ :=
  claim5_toggle_roundtrip ⟨[7], ⟨[]⟩⟩ ⟨[], false, .missing⟩
    ⟨none, [], none, none, false⟩ 7 none "cat:pods:0".data "2026-01-20".data
    (2026, 1, 20) (by decide) rfl (by decide)

/-- Claim C7: every Admin Overlay Editor entry point (the `/admin`
command, the category, brand and block menus, and the availability toggle)
checks the allow-list itself; for a non-admin user each of them leaves the
overlay, the dirty flag, the persisted store and the session unchanged and
renders nothing beyond the callback acknowledgement. -/
theorem claim7_admin_gate (cfg : Config) (g : Globals) (s : Session)
    (userId : Nat) (data : Str) (h : isAdmin cfg userId = false) :
    adminCmd cfg g s userId = (g, s, [])
    ∧ adminToggle cfg g s userId data = (g, s, [.ack])
    ∧ adminCat cfg g s userId data = .ok (g, s, [.ack])
    ∧ adminBrand cfg g s userId data = .ok (g, s, [.ack])
    ∧ adminBlock cfg g s userId data = .ok (g, s, [.ack]) := by
  refine ⟨?_, ?_, ?_, ?_, ?_⟩ <;>
    simp [adminCmd, adminToggle, adminCat, adminBrand, adminBlock, h]

/-- Claim C7, witness: a concrete non-allow-listed user at every admin
entry point. -/
theorem claim7_witness :
    adminCmd ⟨[1], ⟨[]⟩⟩ ⟨[], false, .missing⟩ ⟨none, [], none, none, false⟩ 2
      = (⟨[], false, .missing⟩, ⟨none, [], none, none, false⟩, [])
    ∧ adminToggle ⟨[1], ⟨[]⟩⟩ ⟨[], false, .missing⟩
        ⟨none, [], none, none, false⟩ 2 "admin_toggle:k".data
      = (⟨[], false, .missing⟩, ⟨none, [], none, none, false⟩, [.ack])
    ∧ adminCat ⟨[1], ⟨[]⟩⟩ ⟨[], false, .missing⟩
        ⟨none, [], none, none, false⟩ 2 "admin_toggle:k".data
      = .ok (⟨[], false, .missing⟩, ⟨none, [], none, none, false⟩, [.ack])
    ∧ adminBrand ⟨[1], ⟨[]⟩⟩ ⟨[], false, .missing⟩
        ⟨none, [], none, none, false⟩ 2 "admin_toggle:k".data
      = .ok (⟨[], false, .missing⟩, ⟨none, [], none, none, false⟩, [.ack])
    ∧ adminBlock ⟨[1], ⟨[]⟩⟩ ⟨[], false, .missing⟩
        ⟨none, [], none, none, false⟩ 2 "admin_toggle:k".data
      = .ok (⟨[], false, .missing⟩, ⟨none, [], none, none, false⟩, [.ack]) :=
  claim7_admin_gate ⟨[1], ⟨[]⟩⟩ ⟨[], false, .missing⟩
    ⟨none, [], none, none, false⟩ 2 "admin_toggle:k".data (by decide)

/-- Claim C6, counterexample: a `nic` action token whose category key is
absent from the catalog ends `nicotine_handler` with an uncaught lookup
error and no rendered response — the claimed universal recovery fails. -/
theorem claim6_cex_nicotine_uncaught :
    nicotineHandler ⟨[1], ⟨[]⟩⟩ ⟨[], false, .missing⟩
      ⟨none, [], none, none, false⟩ "nic:x:y:0".data = .error () := rfl

/-- Claim C6 (amended): a category selection with an absent category key
is recovered with an explanatory message, but a `nic` token whose category
key is absent from the catalog terminates `nicotine_handler` with an
uncaught error and no rendered response (its other lookups are equally
unguarded). -/
theorem claim6_error_recovery_amended :
    (∀ (cfg : Config) (g : Globals) (s : Session) (data : Str),
        assocFind cfg.catalog.categories ((breakColon data).2.getD []) = none →
        categoryHandler cfg g s data = .ok (g, s, [.ack, .reply .catNotFound]))
    ∧ (∀ (cfg : Config) (g : Globals) (s : Session) (data t ck bk bi : Str),
        splitColonMax 3 data = [t, ck, bk, bi] →
        assocFind cfg.catalog.categories ck = none →
        nicotineHandler cfg g s data = .error ()) := by
  constructor
  · intro cfg g s data h
    simp [categoryHandler, h]
  · intro cfg g s data t ck bk bi hs h
    simp only [nicotineHandler, hs, h, liftO]
    rfl

/-- Claim C6, witness: both conjuncts at concrete tokens and a concrete
catalog. -/
theorem claim6_witness :
    categoryHandler ⟨[1], ⟨[]⟩⟩ ⟨[], false, .missing⟩
        ⟨none, [], none, none, false⟩ "category:zz".data
      = .ok (⟨[], false, .missing⟩, ⟨none, [], none, none, false⟩,
             [.ack, .reply .catNotFound])
    ∧ nicotineHandler ⟨[1], ⟨[]⟩⟩ ⟨[], false, .missing⟩
        ⟨none, [], none, none, false⟩ "nic:z:w:1".data = .error () :=
  ⟨claim6_error_recovery_amended.1 ⟨[1], ⟨[]⟩⟩ ⟨[], false, .missing⟩
     ⟨none, [], none, none, false⟩ "category:zz".data rfl,
   claim6_error_recovery_amended.2 ⟨[1], ⟨[]⟩⟩ ⟨[], false, .missing⟩
     ⟨none, [], none, none, false⟩ "nic:z:w:1".data
     "nic".data "z".data "w".data "1".data rfl rfl⟩

/-- Claim C9, counterexample: `remove_one_handler` mutates the cart
(a one-line cart becomes empty) while its event trace contains no lock
acquisition, release, or wait alert — the claimed lock around the full
add/remove/checkout sequence does not exist for the remove path. -/
theorem claim9_cex_remove_without_lock :
    ((removeOneHandler ⟨[], false, .missing⟩
        ⟨none, [⟨"x".data, 1⟩], none, none, false⟩).2.2.all
      (fun e => !isLockEv e)) = true
    ∧ (removeOneHandler ⟨[], false, .missing⟩
        ⟨none, [⟨"x".data, 1⟩], none, none, false⟩).2.1.cart = [] := by
  decide

/-- Claim C9 (amended): only the add-to-cart path runs under the per-user
lock — its trace acknowledges, alerts a concurrent caller exactly when the
lock is already held, and wraps the mutation in an acquire/release pair —
while `remove_one_handler` and `checkout_handler` mutate the cart with no
lock event at all; `get_user_lock` hands distinct users distinct locks
(no cross-user lock), so distinct users proceed independently. -/
theorem claim9_lock_discipline_amended :
    (∀ (cfg : Config) (g : Globals) (s : Session) (userId : Nat)
        (lockHeld : Bool) (data : Str),
        (addToCartHandler cfg g s userId lockHeld data).2.2
          = [.ack] ++ (if lockHeld then [.ackWait userId] else [])
              ++ [.acq userId] ++ (addCore cfg g s data).2.2 ++ [.rel userId])
    ∧ (∀ (g : Globals) (s : Session),
        ((removeOneHandler g s).2.2.all (fun e => !isLockEv e)) = true)
    ∧ (∀ (cfg : Config) (g : Globals) (s : Session) (userId : Nat)
        (username : Option Str) (now : Str),
        ((checkoutHandler cfg g s userId username now).2.2.all
          (fun e => !isLockEv e)) = true)
    ∧ (∀ (t : LockTable) (u1 u2 : Nat), lockWF t → u1 ≠ u2 →
        (getUserLock t u1).1 ≠ (getUserLock (getUserLock t u1).2 u2).1) := by
  refine ⟨fun _ _ _ _ _ _ => rfl, ?_, ?_, ?_⟩
  · intro g s
    cases hc : s.cart.getLast? with
    | none => simp [removeOneHandler, hc, isLockEv]
    | some removed =>
      simp only [removeOneHandler, hc, cartViewHandler]
      split_ifs <;> simp [isLockEv]
  · intro cfg g s userId username now
    unfold checkoutHandler
    split_ifs <;> simp [isLockEv, List.all_eq_true]
  · intro t u1 u2 hwf hne
    cases h1 : assocFind t.assign u1 with
    | some l1 =>
      cases h2 : assocFind t.assign u2 with
      | some l2 =>
        simp [getUserLock, h1, h2]
        intro heq
        exact hne (hwf.2 _ (assocFind_mem h1) _ (assocFind_mem h2) heq)
      | none =>
        have hb := hwf.1 (u1, l1) (assocFind_mem h1)
        simp [getUserLock, h1, h2]
        omega
    | none =>
      cases h2 : assocFind t.assign u2 with
      | some l2 =>
        have hb := hwf.1 (u2, l2) (assocFind_mem h2)
        simp [getUserLock, h1, assocFind, fun hh => hne hh, h2]
        omega
      | none =>
        simp [getUserLock, h1, assocFind, fun hh => hne hh, h2]

/-- Claim C9, witness: a concrete held-lock add trace showing the wait
alert and the acquire/release bracket, and distinct locks for two concrete
distinct users on an empty lock table. -/
theorem claim9_witness :
    (addToCartHandler ⟨[1], ⟨[]⟩⟩ ⟨[], false, .missing⟩
        ⟨none, [], none, none, false⟩ 3 true "zz".data).2.2
      = [.ack] ++ (if true then [.ackWait 3] else []) ++ [.acq 3]
          ++ (addCore ⟨[1], ⟨[]⟩⟩ ⟨[], false, .missing⟩
                ⟨none, [], none, none, false⟩ "zz".data).2.2 ++ [.rel 3]
    ∧ (getUserLock ⟨[], 0⟩ 1).1 ≠ (getUserLock (getUserLock ⟨[], 0⟩ 1).2 2).1 :=
  ⟨claim9_lock_discipline_amended.1 ⟨[1], ⟨[]⟩⟩ ⟨[], false, .missing⟩
     ⟨none, [], none, none, false⟩ 3 true "zz".data,
   claim9_lock_discipline_amended.2.2.2 ⟨[], 0⟩ 1 2
     (by unfold lockWF; exact ⟨by simp, by simp⟩) (by decide)⟩

end ElfFox
